import Mathlib

/-!
Verification of the wg-ondemand daemon against its specification.

The definitions below are shallow embeddings of the Rust sources:
  - `handle_command`   embeds `StateManager::handle_command` (src/wg-ondemand/src/state.rs)
  - `parse_cidr`       embeds `parse_cidr` (src/wg-ondemand/src/config.rs)
  - `ip_in_subnets`    embeds `ip_in_subnets` (src/wg-ondemand/src/config.rs)
  - `is_target_subnet` embeds the kernel matcher (src/wg-ondemand-ebpf/src/main.rs)
  - `parse_wg_transfer_output` embeds the transfer parser (src/wg-ondemand/src/wg_controller.rs)
  - `is_connected_to_target` embeds the SSID admission decision (src/wg-ondemand/src/ssid_monitor.rs)
  - `validate_config`  embeds `validate_config` (src/wg-ondemand/src/config.rs)
  - `drainRecords`     embeds the ring-buffer drain loop (src/wg-ondemand/src/main.rs)
  - `emAttach`/`emDetach` embed `EbpfManager::attach`/`detach` (src/wg-ondemand/src/ebpf_loader.rs)

Machine integers are represented as `Nat` with explicit reduction modulo `2 ^ 32`
(for u32) or `2 ^ 64` (for u64) at the points where the Rust code wraps.
Strings are represented as `List Char`, split exactly as Rust's `split` does.
-/

/-! ## State machine (src/wg-ondemand/src/state.rs) -/

/-- The five tunnel lifecycle states (`TunnelState` in types.rs). -/
inductive TunnelState
  | Inactive
  | Monitoring
  | Activating
  | Active
  | Deactivating
deriving DecidableEq, Repr, Fintype

/-- The commands fed to the state machine (`StateCommand` in state.rs). -/
inductive StateCommand
  | StartMonitoring
  | StopMonitoring
  | TrafficDetected
  | TunnelUp
  | TunnelDown
  | IdleTimeout
  | TunnelAlreadyUp
deriving DecidableEq, Repr, Fintype

/-- The actions returned by the state machine (`StateAction` in state.rs). -/
inductive StateAction
  | ActivateTunnel
  | DeactivateTunnel
  | AttachEbpf
  | DetachEbpf
  | None
deriving DecidableEq, Repr, Fintype

/-- Shallow embedding of `StateManager::handle_command`: given the current state
and a command, produce the new state and the action, one arm per Rust match arm,
with the wildcard arm leaving the state unchanged and returning `None`. -/
def handle_command : TunnelState → StateCommand → TunnelState × StateAction
  | .Inactive, .StartMonitoring => (.Monitoring, .AttachEbpf)
  | .Monitoring, .StopMonitoring => (.Inactive, .DetachEbpf)
  | .Active, .StopMonitoring => (.Deactivating, .DeactivateTunnel)
  | .Activating, .StopMonitoring => (.Inactive, .DetachEbpf)
  | .Monitoring, .TrafficDetected => (.Activating, .ActivateTunnel)
  | .Monitoring, .TunnelAlreadyUp => (.Active, .None)
  | .Activating, .TunnelUp => (.Active, .DetachEbpf)
  | .Deactivating, .TunnelDown => (.Monitoring, .AttachEbpf)
  | .Active, .IdleTimeout => (.Deactivating, .DeactivateTunnel)
  | .Activating, .TrafficDetected => (.Activating, .None)
  | .Deactivating, .TrafficDetected => (.Deactivating, .None)
  | .Active, .TrafficDetected => (.Active, .None)
  | s, _ => (s, .None)

/-- Run the state machine over a list of commands, returning the final state
and the list of actions emitted, in order. -/
def runMachine : TunnelState → List StateCommand → TunnelState × List StateAction
  | s, [] => (s, [])
  | s, c :: cs =>
    ((runMachine (handle_command s c).1 cs).1,
      (handle_command s c).2 :: (runMachine (handle_command s c).1 cs).2)

/-- The actions emitted while running `cmds` from state `s`. -/
def machineActions (s : TunnelState) (cmds : List StateCommand) : List StateAction :=
  (runMachine s cmds).2

/-- The nine (state, command) pairs listed in the transition table of spec §4.8. -/
def listedPairs : List (TunnelState × StateCommand) :=
  [(.Inactive, .StartMonitoring),
   (.Monitoring, .StopMonitoring),
   (.Monitoring, .TrafficDetected),
   (.Monitoring, .TunnelAlreadyUp),
   (.Activating, .TunnelUp),
   (.Activating, .StopMonitoring),
   (.Active, .StopMonitoring),
   (.Active, .IdleTimeout),
   (.Deactivating, .TunnelDown)]

/-- Claim C1: `handle_command` implements exactly the transition table of spec
§4.8 — each of the nine listed (state, command) pairs moves to the listed state
and returns the listed action, and every pair not listed leaves the state
unchanged and returns `None`. -/
theorem handle_command_matches_table :
    handle_command .Inactive .StartMonitoring = (.Monitoring, .AttachEbpf)
  ∧ handle_command .Monitoring .StopMonitoring = (.Inactive, .DetachEbpf)
  ∧ handle_command .Monitoring .TrafficDetected = (.Activating, .ActivateTunnel)
  ∧ handle_command .Monitoring .TunnelAlreadyUp = (.Active, .None)
  ∧ handle_command .Activating .TunnelUp = (.Active, .DetachEbpf)
  ∧ handle_command .Activating .StopMonitoring = (.Inactive, .DetachEbpf)
  ∧ handle_command .Active .StopMonitoring = (.Deactivating, .DeactivateTunnel)
  ∧ handle_command .Active .IdleTimeout = (.Deactivating, .DeactivateTunnel)
  ∧ handle_command .Deactivating .TunnelDown = (.Monitoring, .AttachEbpf)
  ∧ ∀ s c, (s, c) ∉ listedPairs → handle_command s c = (s, .None) := by
  decide

/-- Witness for C1: the omitted pair (Inactive, TunnelUp) is a no-op. -/
theorem handle_command_matches_table_witness :
    handle_command .Inactive .TunnelUp = (.Inactive, .None) :=
  handle_command_matches_table.2.2.2.2.2.2.2.2.2 .Inactive .TunnelUp (by decide)

/-! ## Filter attach/detach discipline (claims C2, C3) -/

/-- Whether an action manipulates the kernel filter (AttachEbpf or DetachEbpf). -/
def isFilterAction : StateAction → Bool
  | .AttachEbpf => true
  | .DetachEbpf => true
  | _ => false

/-- The subsequence of filter actions emitted when running `cmds` from `Inactive`. -/
def filterTrace (cmds : List StateCommand) : List StateAction :=
  (machineActions .Inactive cmds).filter isFilterAction

/-- A list of filter actions strictly alternates: no two adjacent elements are
equal (no double attach, no double detach). -/
def strictAlt : List StateAction → Bool
  | a :: b :: rest => (a != b) && strictAlt (b :: rest)
  | _ => true

/-- An alternation checker threaded with the current attached bit: an attach is
only admissible while detached and a detach only while attached. -/
def altFrom : Bool → List StateAction → Bool
  | _, [] => true
  | b, .AttachEbpf :: rest => !b && altFrom true rest
  | b, .DetachEbpf :: rest => b && altFrom false rest
  | _, _ :: _ => false

/-- The states in which the filter is attached when the machine is driven
without the `TunnelAlreadyUp` startup command. -/
def attachedOf : TunnelState → Bool
  | .Monitoring => true
  | .Activating => true
  | _ => false

theorem machineActions_cons (s : TunnelState) (c : StateCommand) (cs : List StateCommand) :
    machineActions s (c :: cs) =
      (handle_command s c).2 :: machineActions (handle_command s c).1 cs := rfl

theorem handle_command_attached_step :
    ∀ s c, c ≠ StateCommand.TunnelAlreadyUp →
      ((handle_command s c).2 = .AttachEbpf →
        attachedOf s = false ∧ attachedOf (handle_command s c).1 = true)
    ∧ ((handle_command s c).2 = .DetachEbpf →
        attachedOf s = true ∧ attachedOf (handle_command s c).1 = false)
    ∧ (isFilterAction (handle_command s c).2 = false →
        attachedOf (handle_command s c).1 = attachedOf s) := by
  decide

theorem altFrom_machineActions :
    ∀ (cmds : List StateCommand) (s : TunnelState),
      (∀ c ∈ cmds, c ≠ StateCommand.TunnelAlreadyUp) →
      altFrom (attachedOf s) ((machineActions s cmds).filter isFilterAction) = true := by
  intro cmds
  induction cmds with
  | nil => intro s _; rfl
  | cons c cs ih =>
    intro s hmem
    have hc : c ≠ StateCommand.TunnelAlreadyUp := hmem c (List.mem_cons_self c cs)
    have hcs : ∀ x ∈ cs, x ≠ StateCommand.TunnelAlreadyUp :=
      fun x hx => hmem x (List.mem_cons_of_mem c hx)
    have hstep := handle_command_attached_step s c hc
    rw [machineActions_cons, List.filter_cons]
    by_cases hf : isFilterAction (handle_command s c).2 = true
    · rw [if_pos hf]
      cases ha : (handle_command s c).2 with
      | AttachEbpf =>
        have h1 := hstep.1 ha
        rw [altFrom, h1.1]
        have := ih (handle_command s c).1 hcs
        rw [h1.2] at this
        simpa using this
      | DetachEbpf =>
        have h1 := hstep.2.1 ha
        rw [altFrom, h1.1]
        have := ih (handle_command s c).1 hcs
        rw [h1.2] at this
        simpa using this
      | ActivateTunnel => rw [ha] at hf; simp [isFilterAction] at hf
      | DeactivateTunnel => rw [ha] at hf; simp [isFilterAction] at hf
      | None => rw [ha] at hf; simp [isFilterAction] at hf
    · rw [if_neg hf]
      have heq := hstep.2.2 (by simpa using hf)
      rw [← heq]
      exact ih (handle_command s c).1 hcs

theorem altFrom_strictAlt :
    ∀ (l : List StateAction) (b : Bool), altFrom b l = true → strictAlt l = true := by
  intro l
  induction l with
  | nil => intro b _; rfl
  | cons a rest ih =>
    intro b h
    cases rest with
    | nil => rfl
    | cons a' rest' =>
      cases a with
      | AttachEbpf =>
        have h' : (!b && altFrom true (a' :: rest')) = true := h
        rw [Bool.and_eq_true] at h'
        have hs := ih true h'.2
        cases a' with
        | AttachEbpf => exact Bool.noConfusion h'.2
        | DetachEbpf =>
          have hred : strictAlt (StateAction.AttachEbpf :: StateAction.DetachEbpf :: rest')
              = ((StateAction.AttachEbpf != StateAction.DetachEbpf)
                  && strictAlt (StateAction.DetachEbpf :: rest')) := rfl
          rw [hred, hs]; rfl
        | ActivateTunnel => exact Bool.noConfusion h'.2
        | DeactivateTunnel => exact Bool.noConfusion h'.2
        | None => exact Bool.noConfusion h'.2
      | DetachEbpf =>
        have h' : (b && altFrom false (a' :: rest')) = true := h
        rw [Bool.and_eq_true] at h'
        have hs := ih false h'.2
        cases a' with
        | DetachEbpf => exact Bool.noConfusion h'.2
        | AttachEbpf =>
          have hred : strictAlt (StateAction.DetachEbpf :: StateAction.AttachEbpf :: rest')
              = ((StateAction.DetachEbpf != StateAction.AttachEbpf)
                  && strictAlt (StateAction.AttachEbpf :: rest')) := rfl
          rw [hred, hs]; rfl
        | ActivateTunnel => exact Bool.noConfusion h'.2
        | DeactivateTunnel => exact Bool.noConfusion h'.2
        | None => exact Bool.noConfusion h'.2
      | ActivateTunnel => exact Bool.noConfusion h
      | DeactivateTunnel => exact Bool.noConfusion h
      | None => exact Bool.noConfusion h

/-- Counterexample to claim C2 as stated: the command sequence StartMonitoring,
TunnelAlreadyUp, StopMonitoring, TunnelDown (fully reachable from Inactive, and
actually produced at startup when the tunnel is already up) emits two
consecutive AttachEbpf actions with no DetachEbpf in between. -/
theorem filterTrace_double_attach :
    filterTrace [.StartMonitoring, .TunnelAlreadyUp, .StopMonitoring, .TunnelDown]
      = [.AttachEbpf, .AttachEbpf]
  ∧ strictAlt [StateAction.AttachEbpf, StateAction.AttachEbpf] = false := by
  decide

/-- Claim C2 (amended): for every command sequence that does not contain the
`TunnelAlreadyUp` startup command, the AttachEbpf/DetachEbpf actions emitted
from `Inactive` strictly alternate — no double attach, no double detach. -/
theorem filterTrace_alternates (cmds : List StateCommand)
    (h : StateCommand.TunnelAlreadyUp ∉ cmds) :
    strictAlt (filterTrace cmds) = true :=
  altFrom_strictAlt _ false
    (altFrom_machineActions cmds .Inactive (fun _ hc hceq => h (hceq ▸ hc)))

/-- Witness for C2: a full activation/deactivation cycle alternates. -/
theorem filterTrace_alternates_witness :
    strictAlt (filterTrace
      [.StartMonitoring, .TrafficDetected, .TunnelUp, .StopMonitoring, .TunnelDown]) = true :=
  filterTrace_alternates
    [.StartMonitoring, .TrafficDetected, .TunnelUp, .StopMonitoring, .TunnelDown]
    (by decide)

/-- One step of the supervisor's attached bit: each emitted AttachEbpf action
sets it, each DetachEbpf clears it, every other action leaves it unchanged
(main.rs dispatches `StateAction::AttachEbpf` to `EbpfManager::attach` and
`StateAction::DetachEbpf` to `EbpfManager::detach`). -/
def applyAction (att : Bool) : StateAction → Bool
  | .AttachEbpf => true
  | .DetachEbpf => false
  | _ => att

/-- Run the state machine from a (state, attached) pair, updating the attached
bit with each emitted action. -/
def runAttached : TunnelState × Bool → List StateCommand → TunnelState × Bool
  | p, [] => p
  | p, c :: cs =>
    runAttached ((handle_command p.1 c).1, applyAction p.2 (handle_command p.1 c).2) cs

theorem applyAction_attached_step :
    ∀ s c, c ≠ StateCommand.TunnelAlreadyUp →
      applyAction (attachedOf s) (handle_command s c).2 = attachedOf (handle_command s c).1 := by
  decide

theorem runAttached_invariant :
    ∀ (cmds : List StateCommand) (s : TunnelState),
      (∀ c ∈ cmds, c ≠ StateCommand.TunnelAlreadyUp) →
      (runAttached (s, attachedOf s) cmds).2 = attachedOf (runAttached (s, attachedOf s) cmds).1 := by
  intro cmds
  induction cmds with
  | nil => intro s _; rfl
  | cons c cs ih =>
    intro s hmem
    have hc : c ≠ StateCommand.TunnelAlreadyUp := hmem c (List.mem_cons_self c cs)
    have hcs : ∀ x ∈ cs, x ≠ StateCommand.TunnelAlreadyUp :=
      fun x hx => hmem x (List.mem_cons_of_mem c hx)
    have hstep := applyAction_attached_step s c hc
    have hr : runAttached (s, attachedOf s) (c :: cs)
        = runAttached ((handle_command s c).1, applyAction (attachedOf s) (handle_command s c).2) cs := rfl
    rw [hr, hstep]
    exact ih (handle_command s c).1 hcs

/-- Counterexample to claim C3 as stated: the command sequence StartMonitoring,
TunnelAlreadyUp reaches the Active state with the filter still attached (the
AttachEbpf emitted on StartMonitoring is never matched by a DetachEbpf, because
the Monitoring → Active transition on TunnelAlreadyUp returns action None). -/
theorem runAttached_active_attached :
    runAttached (.Inactive, false) [.StartMonitoring, .TunnelAlreadyUp]
      = (.Active, true) := by
  decide

/-- Claim C3 (amended): for every command sequence that does not contain the
`TunnelAlreadyUp` startup command, every state reachable from (Inactive,
detached) that is Active has the filter detached. -/
theorem active_implies_detached (cmds : List StateCommand)
    (hno : StateCommand.TunnelAlreadyUp ∉ cmds)
    (hact : (runAttached (.Inactive, false) cmds).1 = .Active) :
    (runAttached (.Inactive, false) cmds).2 = false := by
  have hinv := runAttached_invariant cmds .Inactive (fun c hc hceq => hno (hceq ▸ hc))
  have h0 : attachedOf .Inactive = false := rfl
  rw [h0] at hinv
  rw [hinv, hact]
  rfl

/-- Witness for C3: the normal activation path ends Active with the filter
detached. -/
theorem active_implies_detached_witness :
    (runAttached (.Inactive, false) [.StartMonitoring, .TrafficDetected, .TunnelUp]).2 = false :=
  active_implies_detached [.StartMonitoring, .TrafficDetected, .TunnelUp]
    (by decide) (by decide)

/-! ## CIDR parsing (src/wg-ondemand/src/config.rs) -/

/-- Split a character list on a separator, as Rust's `str::split(sep)` does:
`"a/b"` gives `["a", "b"]`, `"a"` gives `["a"]`, `""` gives `[""]`. -/
def splitOnChar (sep : Char) : List Char → List (List Char)
  | [] => [[]]
  | c :: cs =>
    match splitOnChar sep cs with
    | [] => [[c]]
    | p :: ps => if c = sep then [] :: p :: ps else (c :: p) :: ps

/-- Numeric value of a digit string, most significant digit first. -/
def digitsVal (s : List Char) : Nat :=
  s.foldl (fun a c => a * 10 + (c.toNat - 48)) 0

/-- Parse one IPv4 octet the way Rust's `Ipv4Addr::from_str` does: one to
three decimal digits, no leading zero (except the single digit "0"), value
at most 255. -/
def parseOctet (s : List Char) : Option Nat :=
  if s.isEmpty then none
  else if ¬ s.all Char.isDigit then none
  else if 1 < s.length ∧ s.head? = some '0' then none
  else if digitsVal s ≤ 255 then some (digitsVal s) else none

/-- Parse a dotted-quad IPv4 address into its u32 value (big-endian byte
order, as `u32::from_be_bytes(ip.octets())` computes in parse_cidr). -/
def parseIpv4 (s : List Char) : Option Nat :=
  match splitOnChar '.' s with
  | [a, b, c, d] =>
    match parseOctet a, parseOctet b, parseOctet c, parseOctet d with
    | some va, some vb, some vc, some vd =>
      some (va * 2 ^ 24 + vb * 2 ^ 16 + vc * 2 ^ 8 + vd)
    | _, _, _, _ => none
  | _ => none

/-- Parse an unsigned decimal integer with the given exclusive bound, the way
Rust's `str::parse::<uN>` does: an optional leading '+', then one or more
digits; reject the empty string and values reaching the bound (overflow). -/
def parseUnsigned (bound : Nat) (s : List Char) : Option Nat :=
  let t := if s.head? = some '+' then s.tail else s
  if t.isEmpty then none
  else if ¬ t.all Char.isDigit then none
  else if digitsVal t < bound then some (digitsVal t) else none

/-- Error cases of `parse_cidr` (the distinct `bail!`/`context` sites). -/
inductive CidrError
  | badFormat
  | badIp
  | badLen
  | lenRange
deriving DecidableEq, Repr

/-- The netmask computed by parse_cidr for prefix length `p`:
`0` for `p = 0`, otherwise the u32 value of `!0u32 << (32 - p)`. -/
def mask_for (p : Nat) : Nat :=
  if p = 0 then 0 else ((2 ^ 32 - 1) <<< (32 - p)) % 2 ^ 32

/-- Shallow embedding of `parse_cidr`: split on '/', require exactly two
parts, parse the IPv4 address and the u8 prefix length, require the prefix
at most 32, and return `(ip & mask, mask)`. -/
def parse_cidr (cidr : List Char) : Except CidrError (Nat × Nat) :=
  match splitOnChar '/' cidr with
  | [ipPart, lenPart] =>
    match parseIpv4 ipPart with
    | none => .error .badIp
    | some ip =>
      match parseUnsigned 256 lenPart with
      | none => .error .badLen
      | some p =>
        if 32 < p then .error .lenRange
        else .ok (ip &&& mask_for p, mask_for p)
  | _ => .error .badFormat

/-- The success condition of `parse_cidr`, spelled out: the input splits into
exactly two parts around '/', the first parses as an IPv4 address, the second
parses as a u8, and the prefix is at most 32. -/
def cidrOk (s : List Char) : Bool :=
  match splitOnChar '/' s with
  | [ipPart, lenPart] =>
    (parseIpv4 ipPart).isSome &&
      (match parseUnsigned 256 lenPart with
       | some p => decide (p ≤ 32)
       | none => false)
  | _ => false

theorem mask_for_land_comp :
    ∀ p : Fin 33, (mask_for p.val &&& ((2 ^ 32 - 1) ^^^ mask_for p.val)) = 0 := by
  decide

theorem land_land_comp_zero (a m c : Nat) (h : m &&& c = 0) :
    (a &&& m) &&& c = 0 := by
  apply Nat.eq_of_testBit_eq
  intro i
  have hmc : (Nat.testBit m i && Nat.testBit c i) = false := by
    have := congrArg (fun x => Nat.testBit x i) h
    simpa [Nat.testBit_land, Nat.zero_testBit] using this
  rw [Nat.zero_testBit, Nat.testBit_land, Nat.testBit_land]
  cases hm : Nat.testBit m i with
  | false => simp [hm]
  | true =>
    rw [hm] at hmc
    simp only [Bool.true_and] at hmc
    simp [hmc]

/-- Claim C4: `parse_cidr` succeeds exactly when the input splits into two
parts around '/', the IPv4 octets are valid, and the prefix parses as a u8
that is at most 32; on success with prefix `p` the returned mask is `0` for
`p = 0` and `!0 << (32 - p)` otherwise, the network is `ip & mask`, the
network has no host bits (`network & !mask == 0`), and in particular
"192.168.1.100/24" parses to network 192.168.1.0. -/
theorem parse_cidr_spec :
    (∀ s : List Char, (parse_cidr s).isOk = cidrOk s)
  ∧ (∀ (s : List Char) (n m : Nat), parse_cidr s = .ok (n, m) →
      (∃ ipPart lenPart ip p, splitOnChar '/' s = [ipPart, lenPart] ∧
        parseIpv4 ipPart = some ip ∧ parseUnsigned 256 lenPart = some p ∧
        p ≤ 32 ∧ m = mask_for p ∧ n = (ip &&& m)) ∧
      (n &&& ((2 ^ 32 - 1) ^^^ m)) = 0)
  ∧ parse_cidr ("192.168.1.100/24").toList = .ok (3232235776, 4294967040) := by
  refine ⟨?_, ?_, rfl⟩
  · intro s
    cases hsplit : splitOnChar '/' s with
    | nil => simp [parse_cidr, cidrOk, hsplit, Except.isOk, Except.toBool]
    | cons p0 rest =>
      cases rest with
      | nil => simp [parse_cidr, cidrOk, hsplit, Except.isOk, Except.toBool]
      | cons p1 rest2 =>
        cases rest2 with
        | cons p2 rest3 => simp [parse_cidr, cidrOk, hsplit, Except.isOk, Except.toBool]
        | nil =>
          cases hip : parseIpv4 p0 with
          | none => simp [parse_cidr, cidrOk, hsplit, hip, Except.isOk, Except.toBool]
          | some ip =>
            cases hlen : parseUnsigned 256 p1 with
            | none => simp [parse_cidr, cidrOk, hsplit, hip, hlen, Except.isOk, Except.toBool]
            | some p =>
              by_cases hp : 32 < p
              · simp [parse_cidr, cidrOk, hsplit, hip, hlen, hp,
                  Except.isOk, Except.toBool, Nat.not_le.mpr hp]
              · simp [parse_cidr, cidrOk, hsplit, hip, hlen, hp,
                  Except.isOk, Except.toBool, Nat.not_lt.mp hp]
  · intro s n m h
    cases hsplit : splitOnChar '/' s with
    | nil => simp only [parse_cidr, hsplit] at h; exact absurd h (by simp)
    | cons p0 rest =>
      cases rest with
      | nil => simp only [parse_cidr, hsplit] at h; exact absurd h (by simp)
      | cons p1 rest2 =>
        cases rest2 with
        | cons p2 rest3 => simp only [parse_cidr, hsplit] at h; exact absurd h (by simp)
        | nil =>
          simp only [parse_cidr, hsplit] at h
          cases hip : parseIpv4 p0 with
          | none => simp only [hip] at h; exact absurd h (by simp)
          | some ip =>
            simp only [hip] at h
            cases hlen : parseUnsigned 256 p1 with
            | none => simp only [hlen] at h; exact absurd h (by simp)
            | some p =>
              simp only [hlen] at h
              by_cases hp : 32 < p
              · rw [if_pos hp] at h; exact absurd h (by simp)
              · rw [if_neg hp] at h
                have hinj : (ip &&& mask_for p) = n ∧ mask_for p = m := by
                  simpa using h
                obtain ⟨h1, h2⟩ := hinj
                subst h2
                subst h1
                exact ⟨⟨p0, p1, ip, p, rfl, hip, hlen, Nat.not_lt.mp hp, rfl, rfl⟩,
                  land_land_comp_zero ip (mask_for p) _
                    (mask_for_land_comp ⟨p, by omega⟩)⟩

/-- Witness for C4: the concrete parse of "192.168.1.100/24" clears host bits. -/
theorem parse_cidr_spec_witness :
    (3232235776 &&& ((2 ^ 32 - 1) ^^^ 4294967040)) = 0 :=
  (parse_cidr_spec.2.1 ("192.168.1.100/24").toList 3232235776 4294967040 rfl).2

/-! ## Subnet matching: userspace vs kernel (claim C5) -/

/-- The reserved empty-slot marker of the kernel SUBNETS array
(`EMPTY_SENTINEL = 0xFFFFFFFF` in both ebpf_loader.rs and the eBPF program). -/
def sentinel : Nat := 2 ^ 32 - 1

/-- Shallow embedding of `ip_in_subnets`: parse each CIDR in turn,
propagating the first parse error, and return true as soon as
`(ip & mask) == network` holds for some entry. -/
def ip_in_subnets (ip : Nat) : List (List Char) → Except CidrError Bool
  | [] => .ok false
  | c :: rest =>
    match parse_cidr c with
    | .error e => .error e
    | .ok (network, mask) =>
      if (ip &&& mask) = network then .ok true else ip_in_subnets ip rest

/-- Parse every CIDR of a list, as `EbpfManager::load` does while filling the
SUBNETS map; `none` if any entry fails to parse. -/
def parseEntries : List (List Char) → Option (List (Nat × Nat))
  | [] => some []
  | c :: rest =>
    match parse_cidr c with
    | .ok e => (parseEntries rest).map (fun l => e :: l)
    | .error _ => none

/-- The 16-slot kernel SUBNETS array as `EbpfManager::load` fills it: the
parsed entries (at most 16), then `(sentinel, sentinel)` in every remaining
slot. -/
def slotsOf (entries : List (Nat × Nat)) : List (Nat × Nat) :=
  entries.take 16 ++ List.replicate (16 - entries.length) (sentinel, sentinel)

/-- Shallow embedding of the kernel matcher `is_target_subnet`: walk the
slots, skip any slot equal to `(sentinel, sentinel)`, and return true as soon
as `(ip & mask) == network` for a non-sentinel slot. -/
def is_target_subnet (slots : List (Nat × Nat)) (ip : Nat) : Bool :=
  slots.any fun s =>
    !(s.1 == sentinel && s.2 == sentinel) && ((ip &&& s.2) == s.1)

theorem parseEntries_length :
    ∀ (l : List (List Char)) (entries : List (Nat × Nat)),
      parseEntries l = some entries → entries.length = l.length := by
  intro l
  induction l with
  | nil => intro entries h; simp only [parseEntries, Option.some.injEq] at h; subst h; rfl
  | cons c rest ih =>
    intro entries h
    simp only [parseEntries] at h
    cases hc : parse_cidr c with
    | error e => rw [hc] at h; exact absurd h (by simp)
    | ok e =>
      rw [hc] at h
      cases hr : parseEntries rest with
      | none => rw [hr] at h; exact absurd h (by simp)
      | some es =>
        rw [hr] at h
        simp only [Option.map_some', Option.some.injEq] at h
        subst h
        simp [ih es hr]

theorem ip_in_subnets_eq_any :
    ∀ (l : List (List Char)) (entries : List (Nat × Nat)) (ip : Nat),
      parseEntries l = some entries →
      ip_in_subnets ip l = .ok (entries.any fun e => (ip &&& e.2) == e.1) := by
  intro l
  induction l with
  | nil =>
    intro entries ip h
    simp only [parseEntries, Option.some.injEq] at h
    subst h
    rfl
  | cons c rest ih =>
    intro entries ip h
    simp only [parseEntries] at h
    cases hc : parse_cidr c with
    | error e => rw [hc] at h; exact absurd h (by simp)
    | ok e =>
      rw [hc] at h
      cases hr : parseEntries rest with
      | none => rw [hr] at h; exact absurd h (by simp)
      | some es =>
        rw [hr] at h
        simp only [Option.map_some', Option.some.injEq] at h
        subst h
        cases e with
        | mk network mask =>
          simp only [ip_in_subnets, hc]
          by_cases hm : (ip &&& mask) = network
          · simp [hm]
          · simp only [if_neg hm, List.any_cons]
            rw [ih es ip hr]
            have : ((ip &&& mask) == network) = false := by
              exact beq_eq_false_iff_ne.mpr hm
            simp [this]

theorem replicate_sentinel_no_match :
    ∀ (k : Nat) (ip : Nat),
      (List.replicate k ((sentinel : Nat), (sentinel : Nat))).any
        (fun s => !(s.1 == sentinel && s.2 == sentinel) && ((ip &&& s.2) == s.1)) = false := by
  intro k ip
  induction k with
  | zero => rfl
  | succ k ih => simp [List.replicate_succ, List.any_cons, ih]

theorem is_target_subnet_eq_any :
    ∀ (entries : List (Nat × Nat)) (ip : Nat),
      entries.length ≤ 16 →
      ((sentinel, sentinel) ∉ entries) →
      is_target_subnet (slotsOf entries) ip = (entries.any fun e => (ip &&& e.2) == e.1) := by
  intro entries ip hlen hsen
  unfold is_target_subnet slotsOf
  rw [List.take_of_length_le hlen, List.any_append,
    replicate_sentinel_no_match (16 - entries.length) ip, Bool.or_false]
  induction entries with
  | nil => rfl
  | cons e rest ih =>
    have hes : e ≠ (sentinel, sentinel) := fun he => hsen (he ▸ List.mem_cons_self e rest)
    have hrest : (sentinel, sentinel) ∉ rest := fun hm => hsen (List.mem_cons_of_mem e hm)
    have hguard : (!(e.1 == sentinel && e.2 == sentinel)) = true := by
      cases e with
      | mk n m =>
        by_cases h1 : n = sentinel
        · by_cases h2 : m = sentinel
          · exact absurd (by rw [h1, h2]) hes
          · simp [h1, h2]
        · simp [h1]
    simp only [List.any_cons, hguard, Bool.true_and]
    rw [ih (by simpa using Nat.le_of_succ_le hlen) hrest]

/-- Counterexample to claim C5 as stated: the single-entry list
["255.255.255.255/32"] parses successfully (to network 0xFFFFFFFF, mask
0xFFFFFFFF — exactly the reserved sentinel pair), the userspace matcher
accepts ip 0xFFFFFFFF, but the kernel matcher skips the slot as an empty
sentinel and rejects the same ip. -/
theorem subnet_match_sentinel_clash :
    parseEntries [("255.255.255.255/32").toList] = some [(sentinel, sentinel)]
  ∧ ip_in_subnets (2 ^ 32 - 1) [("255.255.255.255/32").toList] = .ok true
  ∧ is_target_subnet (slotsOf [(sentinel, sentinel)]) (2 ^ 32 - 1) = false := by
  refine ⟨rfl, rfl, rfl⟩

/-- Claim C5 (amended): for every list of 1 to 16 CIDR strings that all parse
successfully and none of which parses to the sentinel pair (i.e. no
"255.255.255.255/32" entry), and every ip, the userspace matcher
`ip_in_subnets` and the kernel matcher `is_target_subnet` — run over the
16-slot array filled with the parsed entries followed by sentinel slots —
return the same boolean; and sentinel slots alone never match any ip. -/
theorem ip_in_subnets_matches_kernel :
    (∀ (l : List (List Char)) (entries : List (Nat × Nat)) (ip : Nat),
      parseEntries l = some entries →
      1 ≤ l.length → l.length ≤ 16 →
      (sentinel, sentinel) ∉ entries →
      ip_in_subnets ip l = .ok (is_target_subnet (slotsOf entries) ip))
  ∧ (∀ ip : Nat, is_target_subnet (slotsOf []) ip = false) := by
  constructor
  · intro l entries ip hparse _ hlen hsen
    have hel : entries.length = l.length := parseEntries_length l entries hparse
    rw [ip_in_subnets_eq_any l entries ip hparse,
      is_target_subnet_eq_any entries ip (hel ▸ hlen) hsen]
  · intro ip
    exact replicate_sentinel_no_match 16 ip

/-- Witness for C5: the matchers agree on ["10.0.0.0/8"] at ip 10.0.0.1. -/
theorem ip_in_subnets_matches_kernel_witness :
    ip_in_subnets 167772161 [("10.0.0.0/8").toList]
      = .ok (is_target_subnet (slotsOf [(167772160, 4278190080)]) 167772161) :=
  ip_in_subnets_matches_kernel.1 [("10.0.0.0/8").toList] [(167772160, 4278190080)]
    167772161 rfl (by decide) (by decide) (by decide)

/-! ## Transfer-line parser (src/wg-ondemand/src/wg_controller.rs) -/

/-- Strip one trailing carriage return, as Rust's `str::lines` does. -/
def stripCR (l : List Char) : List Char :=
  if l.getLast? = some '\r' then l.dropLast else l

/-- Split into lines the way Rust's `str::lines` does: split on '\n', drop
the final empty piece produced by a trailing newline, strip a trailing '\r'
from each line. -/
def linesOf (s : List Char) : List (List Char) :=
  let parts := splitOnChar '\n' s
  let parts := if parts.getLast? = some [] then parts.dropLast else parts
  parts.map stripCR

/-- The contribution of one line to the (rx, tx) totals: fields 2 and 3 of
the tab-split line when there are at least 3 fields and both parse as u64,
nothing otherwise. -/
def lineStat (l : List Char) : Option (Nat × Nat) :=
  match splitOnChar '\t' l with
  | _ :: f1 :: f2 :: _ =>
    match parseUnsigned (2 ^ 64) f1, parseUnsigned (2 ^ 64) f2 with
    | some rx, some tx => some (rx, tx)
    | _, _ => none
  | _ => none

/-- Fold the per-line accumulation loop of `parse_wg_transfer_output` over a
list of lines: `total_rx += rx` and `total_tx += tx` are u64 additions, so
they wrap modulo 2^64. -/
def foldLines (lns : List (List Char)) (acc : Nat × Nat) : Nat × Nat :=
  match lns with
  | [] => acc
  | l :: rest =>
    match lineStat l with
    | some (rx, tx) => foldLines rest ((acc.1 + rx) % 2 ^ 64, (acc.2 + tx) % 2 ^ 64)
    | none => foldLines rest acc

/-- Shallow embedding of `WgController::parse_wg_transfer_output`: iterate
over the lines of the input, and for each line with at least 3 tab-separated
fields whose fields 2 and 3 parse as u64, add them to the running totals. -/
def parse_wg_transfer_output (s : List Char) : Nat × Nat :=
  foldLines (linesOf s) (0, 0)

/-- The well-formed lines of the input: at least 3 tab-separated fields with
fields 2 and 3 parsing as u64. -/
def wellFormedLine (l : List Char) : Bool :=
  (lineStat l).isSome

/-- Mathematical (unwrapped) sum of field 2 over the well-formed lines. -/
def rxSum (s : List Char) : Nat :=
  (((linesOf s).filterMap lineStat).map Prod.fst).sum

/-- Mathematical (unwrapped) sum of field 3 over the well-formed lines. -/
def txSum (s : List Char) : Nat :=
  (((linesOf s).filterMap lineStat).map Prod.snd).sum

theorem foldLines_eq_sum :
    ∀ (lns : List (List Char)) (a b : Nat), a < 2 ^ 64 → b < 2 ^ 64 →
      foldLines lns (a, b)
        = ((a + ((lns.filterMap lineStat).map Prod.fst).sum) % 2 ^ 64,
           (b + ((lns.filterMap lineStat).map Prod.snd).sum) % 2 ^ 64) := by
  intro lns
  induction lns with
  | nil =>
    intro a b ha hb
    simp only [foldLines, List.filterMap_nil, List.map_nil, List.sum_nil, Nat.add_zero]
    rw [Nat.mod_eq_of_lt ha, Nat.mod_eq_of_lt hb]
  | cons l rest ih =>
    intro a b ha hb
    cases hl : lineStat l with
    | none => simp [foldLines, hl, List.filterMap_cons, ih a b ha hb]
    | some p =>
      cases p with
      | mk rx tx =>
        simp only [foldLines, hl, List.filterMap_cons]
        rw [ih ((a + rx) % 2 ^ 64) ((b + tx) % 2 ^ 64)
          (Nat.mod_lt _ (by norm_num)) (Nat.mod_lt _ (by norm_num))]
        simp only [List.map_cons, List.sum_cons]
        rw [Nat.mod_add_mod, Nat.mod_add_mod]
        rw [Nat.add_assoc, Nat.add_assoc]

/-- Counterexample to claim C6 as stated: on two lines whose rx fields are
18446744073709551615 (= 2^64 - 1) and 1, the u64 accumulator wraps and the
function returns 0, not the mathematical sum 2^64. -/
theorem parse_wg_transfer_wraps :
    parse_wg_transfer_output ("p\t18446744073709551615\t7\nq\t1\t8").toList = (0, 15)
  ∧ rxSum ("p\t18446744073709551615\t7\nq\t1\t8").toList = 2 ^ 64 := by
  refine ⟨rfl, rfl⟩

/-- Claim C6 (amended): `parse_wg_transfer_output` returns the sums of fields
2 and 3 modulo 2^64 over exactly the lines with at least 3 tab-separated
fields whose fields 2 and 3 parse as u64 (other lines contribute nothing,
trailing fields are ignored by the tab-split projection), and the result is
invariant under permutation of the lines. -/
theorem parse_wg_transfer_output_spec :
    (∀ s : List Char,
      parse_wg_transfer_output s = (rxSum s % 2 ^ 64, txSum s % 2 ^ 64))
  ∧ (∀ l1 l2 : List (List Char), l1.Perm l2 →
      foldLines l1 (0, 0) = foldLines l2 (0, 0)) := by
  constructor
  · intro s
    unfold parse_wg_transfer_output rxSum txSum
    rw [foldLines_eq_sum (linesOf s) 0 0 (by norm_num) (by norm_num)]
    simp
  · intro l1 l2 hperm
    rw [foldLines_eq_sum l1 0 0 (by norm_num) (by norm_num),
      foldLines_eq_sum l2 0 0 (by norm_num) (by norm_num)]
    have hfm : (l1.filterMap lineStat).Perm (l2.filterMap lineStat) :=
      hperm.filterMap lineStat
    rw [List.Perm.sum_eq (hfm.map Prod.fst), List.Perm.sum_eq (hfm.map Prod.snd)]

/-- Witness for C6: swapping two lines leaves the totals unchanged. -/
theorem parse_wg_transfer_output_spec_witness :
    foldLines [("a\t1\t2").toList, ("b\t3\t4").toList] (0, 0)
      = foldLines [("b\t3\t4").toList, ("a\t1\t2").toList] (0, 0) :=
  parse_wg_transfer_output_spec.2 _ _
    (List.Perm.swap ("b\t3\t4").toList ("a\t1\t2").toList [])

/-! ## SSID admission (src/wg-ondemand/src/ssid_monitor.rs) -/

/-- Shallow embedding of the decision of `SsidMonitor::is_connected_to_target`
given the resolved SSID (`none` when not connected to Wi-Fi): first check the
exclude list (it wins), then admit everything if the target list is empty,
otherwise require membership in the target list. -/
def is_connected_to_target (targets excludes : List String)
    (currentSsid : Option String) : Bool :=
  match currentSsid with
  | none => false
  | some ssid =>
    if excludes.contains ssid then false
    else if targets.isEmpty then true
    else targets.contains ssid

/-- Claim C7: the admission decision equals
(ssid not excluded) AND (target list empty OR ssid targeted), and is false
when no SSID is resolved. -/
theorem is_connected_to_target_spec :
    ∀ (targets excludes : List String) (o : Option String),
      is_connected_to_target targets excludes o =
        match o with
        | none => false
        | some ssid => !excludes.contains ssid && (targets.isEmpty || targets.contains ssid) := by
  intro targets excludes o
  cases o with
  | none => rfl
  | some ssid =>
    simp only [is_connected_to_target]
    by_cases hx : excludes.contains ssid
    · rw [if_pos hx, hx]; rfl
    · have hx' : excludes.contains ssid = false := by simpa using hx
      rw [if_neg hx, hx']
      by_cases ht : targets.isEmpty
      · rw [if_pos ht, ht]; rfl
      · have ht' : targets.isEmpty = false := by simpa using ht
        rw [if_neg ht, ht']
        rfl

/-! ## Configuration validation (src/wg-ondemand/src/config.rs) -/

/-- The `[general]` configuration section (fields of `GeneralConfig` that
`validate_config` reads, plus the ones it ignores). -/
structure GeneralConfig where
  target_ssids : List String
  exclude_ssids : List String
  wg_interface : String
  nm_connection : Option String
  monitor_interface : Option String
  idle_timeout : Nat
  log_level : String

/-- The `[subnets]` configuration section. -/
structure SubnetConfig where
  ranges : List (List Char)

/-- The full configuration (`Config` in types.rs). -/
structure Config where
  general : GeneralConfig
  subnets : SubnetConfig

/-- Validation error cases (the distinct `bail!` sites of validate_config). -/
inductive ValidationError
  | ssidInBothLists
  | emptyInterface
  | zeroIdleTimeout
  | emptySubnets
  | tooManySubnets
  | invalidCidr (e : CidrError)
deriving DecidableEq, Repr

/-- Check each subnet range parses as CIDR, propagating the first failure
(the final loop of validate_config). -/
def checkCidrs : List (List Char) → Except ValidationError Unit
  | [] => .ok ()
  | r :: rest =>
    match parse_cidr r with
    | .error e => .error (.invalidCidr e)
    | .ok _ => checkCidrs rest

/-- Shallow embedding of `validate_config`, checks in source order: an SSID in
both lists, empty wg_interface, zero idle_timeout, empty subnet ranges, more
than 16 ranges, and finally each range must parse as CIDR. -/
def validate_config (c : Config) : Except ValidationError Unit :=
  if c.general.target_ssids.any (fun s => c.general.exclude_ssids.contains s) then
    .error .ssidInBothLists
  else if c.general.wg_interface.isEmpty then .error .emptyInterface
  else if c.general.idle_timeout = 0 then .error .zeroIdleTimeout
  else if c.subnets.ranges.isEmpty then .error .emptySubnets
  else if 16 < c.subnets.ranges.length then .error .tooManySubnets
  else checkCidrs c.subnets.ranges

theorem checkCidrs_isOk :
    ∀ rs : List (List Char),
      (checkCidrs rs).isOk = true ↔ ∀ r ∈ rs, (parse_cidr r).isOk = true := by
  intro rs
  induction rs with
  | nil => simp [checkCidrs, Except.isOk, Except.toBool]
  | cons r rest ih =>
    cases hr : parse_cidr r with
    | error e =>
      simp only [checkCidrs, hr]
      constructor
      · intro h; exact absurd h (by simp [Except.isOk, Except.toBool])
      · intro h
        have := h r (List.mem_cons_self r rest)
        rw [hr] at this
        exact absurd this (by simp [Except.isOk, Except.toBool])
    | ok u =>
      simp only [checkCidrs, hr]
      rw [ih]
      constructor
      · intro h x hx
        rcases List.mem_cons.mp hx with hx | hx
        · subst hx; rw [hr]; rfl
        · exact h x hx
      · intro h x hx
        exact h x (List.mem_cons_of_mem r hx)

/-- A sample configuration with empty SSID lists and exactly 16 pairwise
overlapping subnet ranges: accepted by validate_config. -/
def sampleConfig16 : Config :=
  { general :=
      { target_ssids := []
        exclude_ssids := []
        wg_interface := "wg0"
        nm_connection := none
        monitor_interface := none
        idle_timeout := 300
        log_level := "info" }
    subnets := { ranges := List.replicate 16 ("10.0.0.0/8").toList } }

/-- Claim C8: `validate_config` succeeds iff wg_interface is nonempty,
idle_timeout is nonzero, no SSID is in both lists, the subnet list is
nonempty with at most 16 entries, and every range parses as CIDR; in
particular a configuration with exactly 16 overlapping ranges and both SSID
lists empty is accepted. -/
theorem validate_config_spec :
    (∀ c : Config, (validate_config c).isOk = true ↔
      (c.general.wg_interface.isEmpty = false ∧
       c.general.idle_timeout ≠ 0 ∧
       (∀ s ∈ c.general.target_ssids, ¬ c.general.exclude_ssids.contains s = true) ∧
       c.subnets.ranges ≠ [] ∧
       c.subnets.ranges.length ≤ 16 ∧
       ∀ r ∈ c.subnets.ranges, (parse_cidr r).isOk = true))
  ∧ validate_config sampleConfig16 = .ok () := by
  constructor
  · intro c
    unfold validate_config
    by_cases h1 : c.general.target_ssids.any (fun s => c.general.exclude_ssids.contains s)
    · rw [if_pos h1]
      simp only [Except.isOk, Except.toBool]
      constructor
      · intro h; exact absurd h (by simp)
      · intro h
        rcases List.any_eq_true.mp h1 with ⟨s, hs, hmem⟩
        exact absurd hmem (h.2.2.1 s hs)
    · rw [if_neg h1]
      by_cases h2 : c.general.wg_interface.isEmpty
      · simp [h2, Except.isOk, Except.toBool]
      · rw [if_neg h2]
        by_cases h3 : c.general.idle_timeout = 0
        · simp [h2, h3, Except.isOk, Except.toBool]
        · rw [if_neg h3]
          by_cases h4 : c.subnets.ranges.isEmpty
          · simp [h2, h3, h4, List.isEmpty_iff.mp h4, Except.isOk, Except.toBool]
          · rw [if_neg h4]
            by_cases h5 : 16 < c.subnets.ranges.length
            · simp [h2, h3, h5, Except.isOk, Except.toBool, Nat.not_le.mpr h5]
            · rw [if_neg h5]
              rw [checkCidrs_isOk]
              have hno : ∀ s ∈ c.general.target_ssids,
                  ¬ c.general.exclude_ssids.contains s = true := by
                intro s hs hc
                exact h1 (List.any_eq_true.mpr ⟨s, hs, hc⟩)
              constructor
              · intro h
                exact ⟨Bool.not_eq_true _ ▸ (by simpa using h2), h3, hno,
                  fun he => h4 (by simp [he]), Nat.not_lt.mp h5, h⟩
              · intro h; exact h.2.2.2.2.2
  · rfl

/-- Witness for C8: the sample 16-range configuration satisfies the success
condition, hence validates. -/
theorem validate_config_spec_witness :
    (validate_config sampleConfig16).isOk = true :=
  (validate_config_spec.1 sampleConfig16).mpr (by decide)

/-! ## Ring-buffer drain (src/wg-ondemand/src/main.rs, ebpf_timer tick arm) -/

/-- The byte size of the `TrafficEvent` record: u64 timestamp + u32 dest_ip +
u16 dest_port + u8 protocol + u8 padding (repr(C), no implicit padding). -/
def trafficEventSize : Nat := 8 + 4 + 2 + 1 + 1

/-- Shallow embedding of the drain loop of the ebpf_timer tick arm: walk the
records pulled from the ring buffer in order and keep exactly those whose
byte length equals `size_of::<TrafficEvent>()`; the kept records are the ones
forwarded to the state manager. -/
def drainRecords : List (List Nat) → List (List Nat)
  | [] => []
  | r :: rest =>
    if r.length = trafficEventSize then r :: drainRecords rest
    else drainRecords rest

/-- The commands forwarded to the supervisor: one `TrafficDetected` per kept
record, in order. -/
def forwardedCommands (records : List (List Nat)) : List StateCommand :=
  (drainRecords records).map (fun _ => .TrafficDetected)

/-- Claim C9: a record is forwarded iff its byte length equals 16 (the size
of TrafficEvent); all other records are dropped, order is preserved (the
forwarded records are exactly the subsequence of 16-byte records), and each
forwarded record becomes one TrafficDetected command. -/
theorem drainRecords_spec :
    trafficEventSize = 16
  ∧ (∀ records : List (List Nat),
      drainRecords records = records.filter (fun r => r.length == 16))
  ∧ (∀ records : List (List Nat),
      forwardedCommands records
        = (records.filter (fun r => r.length == 16)).map (fun _ => .TrafficDetected)) := by
  have hf : ∀ records : List (List Nat),
      drainRecords records = records.filter (fun r => r.length == 16) := by
    intro records
    induction records with
    | nil => rfl
    | cons r rest ih =>
      simp only [drainRecords, List.filter_cons]
      by_cases hr : r.length = trafficEventSize
      · rw [if_pos hr]
        have : (r.length == 16) = true := by
          rw [hr]; rfl
        rw [this, ih]
        simp
      · rw [if_neg hr]
        have : (r.length == 16) = false := by
          apply beq_eq_false_iff_ne.mpr
          simpa [trafficEventSize] using hr
        rw [this, ih]
        simp
  exact ⟨rfl, hf, fun records => by rw [forwardedCommands, hf records]⟩

/-! ## EbpfManager attach/detach lifecycle (src/wg-ondemand/src/ebpf_loader.rs) -/

/-- Abstract state of an `EbpfManager` after `load`:
`linkId` is `link_id.is_some()`, `ringbuf` is `ringbuf.is_some()`, and
`eventsAvailable` records whether the EVENTS map is still owned by the `Bpf`
object (it can be removed exactly once — `Bpf::take_map` moves it out, and
every later `take_map("EVENTS")` returns `None`). -/
structure EbpfManager where
  linkId : Bool
  ringbuf : Bool
  eventsAvailable : Bool
deriving DecidableEq, Repr

/-- The manager state right after `EbpfManager::load`: not attached, no
cached ring buffer, EVENTS map still inside the `Bpf` object. -/
def emLoad : EbpfManager :=
  { linkId := false, ringbuf := false, eventsAvailable := true }

/-- Shallow embedding of `EbpfManager::attach` (kernel TC attach assumed to
succeed): if already attached, return Ok without touching anything; else
store the new link id, then try to take the EVENTS map and cache the ring
buffer — when the map has already been moved out, `take_map` yields `None`
and attach returns an error with the link id already stored. The Bool result
is `true` for `Ok`. -/
def emAttach (m : EbpfManager) : EbpfManager × Bool :=
  if m.linkId then (m, true)
  else
    let m1 := { m with linkId := true }
    if m1.eventsAvailable then
      ({ m1 with ringbuf := true, eventsAvailable := false }, true)
    else (m1, false)

/-- Shallow embedding of `EbpfManager::detach` (kernel detach assumed to
succeed): if a link id is stored, take it, detach, and drop the cached ring
buffer; otherwise do nothing and return Ok. -/
def emDetach (m : EbpfManager) : EbpfManager × Bool :=
  if m.linkId then ({ m with linkId := false, ringbuf := false }, true)
  else (m, true)

/-- `EbpfManager::is_attached`. -/
def em_is_attached (m : EbpfManager) : Bool := m.linkId

/-- Whether `EbpfManager::poll_events` returns `Some`. -/
def em_poll_events_some (m : EbpfManager) : Bool := m.ringbuf

/-- Claim C10 evaluated at the failing call sequence attach(); detach();
attach() after load: the first cycle preserves the invariant (ring buffer
cached exactly while attached), but the second attach stores a fresh link id
and then fails to re-take the EVENTS map (already moved out by the first
attach), leaving the manager attached with no ring buffer — `is_attached()`
true while `poll_events()` is `None`, refuting the claimed invariant. -/
theorem emAttach_second_attach_breaks_invariant :
    (em_is_attached (emAttach emLoad).1 = true
      ∧ em_poll_events_some (emAttach emLoad).1 = true
      ∧ (emAttach emLoad).2 = true)
  ∧ (em_is_attached (emDetach (emAttach emLoad).1).1 = false
      ∧ em_poll_events_some (emDetach (emAttach emLoad).1).1 = false)
  ∧ (em_is_attached (emAttach (emDetach (emAttach emLoad).1).1).1 = true
      ∧ em_poll_events_some (emAttach (emDetach (emAttach emLoad).1).1).1 = false
      ∧ (emAttach (emDetach (emAttach emLoad).1).1).2 = false) := by
  decide
